import Mathlib

/-!
Shallow embedding of `src/axiomatic_self_healer.rs` (Adaptive Axiomatic
Regularizer and AxiomaticSelfHealer).

Modelling conventions:
- Rust `String` / `&str` is modelled as `List Char`; `str::contains` is the
  executable substring test `containsSub`, and `str::replace` is `replaceAll`.
- Rust `f64` arithmetic on weights, penalties, learning rate and threshold is
  modelled by exact rationals `ℚ` (all constants in the source are small
  decimal literals).
- `HashMap<Axiom, f64>` is modelled as `Axiom → Option ℚ` (a total function to
  an optional value: `none` means the key is absent).
- The `Arc<Mutex<Vec<Violation>>>` ledger is modelled as a `List Violation`
  threaded sequentially through the operations; the lock acquisition that the
  Rust code performs always succeeds in the sequential model.
- `Result<String, String>` is modelled by the `Result` inductive below.
-/

/-- Rust `enum Axiom` from the source: the closed set of monitored axioms. -/
inductive Axiom where
  | Consistency
  | Completeness
  | Transparency
  | Safety
  | Fairness
deriving DecidableEq, Repr

/-- Rust `enum Severity` from the source. -/
inductive Severity where
  | Low
  | Medium
  | High
  | Critical
deriving DecidableEq, Repr

/-- Declaration-order rank of a severity, mirroring the derived `PartialOrd`
on the Rust enum (`Low < Medium < High < Critical`). -/
def sevRank : Severity → Nat
  | .Low => 0
  | .Medium => 1
  | .High => 2
  | .Critical => 3

/-- Rust `struct Violation`: a detected axiom violation. -/
structure Violation where
  axiom_ : Axiom
  severity : Severity
  context : List Char
  timestamp : Nat
deriving DecidableEq, Repr

/-- Rust `enum CorrectionStrategy`. -/
inductive CorrectionStrategy where
  | Rollback
  | Recompute
  | Interpolate
  | QueryUser
  | ApplyDefault
deriving DecidableEq, Repr

/-- Rust `Result<T, E>` (with `Ok`/`Err` constructors as in Rust). -/
inductive Result (α ε : Type) where
  | Ok : α → Result α ε
  | Err : ε → Result α ε
deriving DecidableEq, Repr

/-- Whether a `Result` is the `Ok` variant. -/
def Result.isOk {α ε : Type} : Result α ε → Bool
  | .Ok _ => true
  | .Err _ => false

/-- Substring test, modelling Rust `str::contains(pat)`: true iff `pat`
occurs contiguously in `s` (the empty pattern occurs everywhere). -/
def containsSub (pat : List Char) : List Char → Bool
  | [] => pat.isEmpty
  | c :: rest => pat.isPrefixOf (c :: rest) || containsSub pat rest

/-- All-occurrences replacement, modelling Rust `str::replace(pat, rep)`:
scan left to right, replacing each non-overlapping occurrence of `pat`. -/
def replaceAll (pat rep : List Char) : List Char → List Char
  | [] => []
  | c :: rest =>
    if h : pat ≠ [] ∧ pat.isPrefixOf (c :: rest) then
      rep ++ replaceAll pat rep ((c :: rest).drop pat.length)
    else
      c :: replaceAll pat rep rest
termination_by s => s.length
decreasing_by
  · have hp : 0 < pat.length := List.length_pos.mpr h.1
    simp only [List.length_drop, List.length_cons]
    omega
  · simp

/-- The literal trigger substring for the Consistency detection rule. -/
def pat_inconsistent : List Char := "inconsistent".toList

/-- The literal trigger substring for the Safety detection rule. -/
def pat_unsafe : List Char := "unsafe".toList

/-- Rust `AdaptiveAxiomaticRegularizer::current_timestamp`, which in the
source is the constant 0 (a simplified timestamp). -/
def current_timestamp : Nat := 0

/-- State of the Rust `struct AdaptiveAxiomaticRegularizer`. -/
structure AdaptiveAxiomaticRegularizer where
  axiom_weights : Axiom → Option ℚ
  violation_history : List Violation
  learning_rate : ℚ
  threshold : ℚ

/-- Rust `AdaptiveAxiomaticRegularizer::new`: initial weights
(Consistency 1.0, Completeness 1.0, Transparency 1.0, Safety 1.5,
Fairness 1.0), empty history, learning rate 0.01, threshold 0.5. -/
def AdaptiveAxiomaticRegularizer.new : AdaptiveAxiomaticRegularizer where
  axiom_weights := fun a =>
    match a with
    | .Consistency => some 1
    | .Completeness => some 1
    | .Transparency => some 1
    | .Safety => some (mkRat 3 2)
    | .Fairness => some 1
  violation_history := []
  learning_rate := mkRat 1 100
  threshold := mkRat 1 2

/-- Rust `detect_violations`: pushes a `(Consistency, High)` violation when
the context contains "inconsistent", then a `(Safety, Critical)` violation
when it contains "unsafe"; each carries the full context and the current
timestamp. (`&self` is not read by the Rust method.) -/
def detect_violations (context : List Char) : List Violation :=
  (if containsSub pat_inconsistent context then
    [{ axiom_ := .Consistency, severity := .High, context := context,
       timestamp := current_timestamp }]
  else []) ++
  (if containsSub pat_unsafe context then
    [{ axiom_ := .Safety, severity := .Critical, context := context,
       timestamp := current_timestamp }]
  else [])

/-- The fixed severity multiplier from the `match` inside
`calculate_penalty`: Low 1, Medium 2, High 4, Critical 8. -/
def severity_multiplier : Severity → ℚ
  | .Low => 1
  | .Medium => 2
  | .High => 4
  | .Critical => 8

/-- Weight lookup with default, modelling
`self.axiom_weights.get(&v.axiom).unwrap_or(&1.0)`. -/
def weightOf (weights : Axiom → Option ℚ) (a : Axiom) : ℚ :=
  match weights a with
  | some w => w
  | none => 1

/-- Rust `calculate_penalty`: sum over the violations of
`weight(axiom) * severity_multiplier(severity)` (iterator map + sum). -/
def calculate_penalty (weights : Axiom → Option ℚ) (violations : List Violation) : ℚ :=
  (violations.map (fun v => weightOf weights v.axiom_ * severity_multiplier v.severity)).sum

/-- Rust `update_weights`: if the axiom is present in the map, add
`learning_rate * feedback` to its weight and clamp to `[0.1, 10.0]`
(`weight.max(0.1).min(10.0)`); if absent, do nothing. -/
def update_weights (r : AdaptiveAxiomaticRegularizer) (a : Axiom) (feedback : ℚ) :
    AdaptiveAxiomaticRegularizer :=
  match r.axiom_weights a with
  | some w =>
    { r with axiom_weights := fun a' =>
        if a' = a then some (min (max (w + r.learning_rate * feedback) (mkRat 1 10)) 10)
        else r.axiom_weights a' }
  | none => r

/-- Rust `record_violation`: append the violation to the history (the lock
always succeeds in the sequential model). -/
def record_violation (r : AdaptiveAxiomaticRegularizer) (v : Violation) :
    AdaptiveAxiomaticRegularizer :=
  { r with violation_history := r.violation_history ++ [v] }

/-- State of the Rust `struct AxiomaticSelfHealer`. -/
structure AxiomaticSelfHealer where
  regularizer : AdaptiveAxiomaticRegularizer
  correction_strategies : Axiom → Option (List CorrectionStrategy)
  auto_heal : Bool

/-- Rust `AxiomaticSelfHealer::new`: strategy catalog
Consistency ↦ [Rollback, Recompute], Safety ↦ [Rollback, QueryUser],
Completeness ↦ [Interpolate, ApplyDefault]; auto_heal true. -/
def AxiomaticSelfHealer.new (regularizer : AdaptiveAxiomaticRegularizer) :
    AxiomaticSelfHealer where
  regularizer := regularizer
  correction_strategies := fun a =>
    match a with
    | .Consistency => some [.Rollback, .Recompute]
    | .Safety => some [.Rollback, .QueryUser]
    | .Completeness => some [.Interpolate, .ApplyDefault]
    | _ => none
  auto_heal := true

/-- Rust `apply_strategy`: Rollback prefixes a marker, Recompute replaces
"inconsistent" with "consistent", Interpolate and ApplyDefault suffix
markers, QueryUser always fails. (`&self` and the violation argument are
not read by the Rust method.) -/
def apply_strategy (strategy : CorrectionStrategy) (context : List Char)
    (_violation : Violation) : Result (List Char) (List Char) :=
  match strategy with
  | .Rollback => .Ok ("[ROLLED_BACK] ".toList ++ context)
  | .Recompute => .Ok (replaceAll pat_inconsistent "consistent".toList context)
  | .Interpolate => .Ok (context ++ " [INTERPOLATED]".toList)
  | .QueryUser => .Err "User intervention required".toList
  | .ApplyDefault => .Ok (context ++ " [DEFAULT_APPLIED]".toList)

/-- The inner strategy loop of `heal_violations`: try the strategies in
order on the current context, keeping the first `Ok` result (`break`) and
skipping over `Err` results (`continue`); if all fail, the context is
returned unchanged. -/
def applyFirst (strategies : List CorrectionStrategy) (context : List Char)
    (v : Violation) : List Char :=
  match strategies with
  | [] => context
  | s :: rest =>
    match apply_strategy s context v with
    | .Ok corrected => corrected
    | .Err _ => applyFirst rest context v

/-- The outer loop of `heal_violations`: for each violation in order, run
the strategy list of its axiom (if any) on the working context, then record
the violation; returns the final healer state and healed context. -/
def healStep (h : AxiomaticSelfHealer) (healed : List Char) :
    List Violation → AxiomaticSelfHealer × List Char
  | [] => (h, healed)
  | v :: rest =>
    let healed' :=
      match h.correction_strategies v.axiom_ with
      | some strategies => applyFirst strategies healed v
      | none => healed
    healStep { h with regularizer := record_violation h.regularizer v } healed' rest

/-- Rust `heal_violations`: run the healing loop starting from the input
context and wrap the final context in `Ok`. -/
def heal_violations (h : AxiomaticSelfHealer) (violations : List Violation)
    (context : List Char) : AxiomaticSelfHealer × Result (List Char) (List Char) :=
  let out := healStep h context violations
  (out.1, .Ok out.2)

/-- The record-only branch of `monitor_and_heal`: record every violation,
in order, without healing. -/
def recordAll (h : AxiomaticSelfHealer) : List Violation → AxiomaticSelfHealer
  | [] => h
  | v :: rest => recordAll { h with regularizer := record_violation h.regularizer v } rest

/-- Rust `monitor_and_heal`: detect; if no violations return the context
unchanged; otherwise score, and either heal (penalty above threshold and
auto-heal on) or record-only and return the original context. -/
def monitor_and_heal (h : AxiomaticSelfHealer) (context : List Char) :
    AxiomaticSelfHealer × Result (List Char) (List Char) :=
  let violations := detect_violations context
  if violations.isEmpty then
    (h, .Ok context)
  else
    let penalty := calculate_penalty h.regularizer.axiom_weights violations
    if h.regularizer.threshold < penalty ∧ h.auto_heal = true then
      heal_violations h violations context
    else
      (recordAll h violations, .Ok context)

/-- Rust `struct ViolationStatistics`; the count maps are modelled as total
functions where an axiom or severity absent from the Rust `HashMap` counts
as 0. -/
structure ViolationStatistics where
  total : Nat
  by_axiom_ : Axiom → Nat
  by_severity : Severity → Nat

/-- The counting loop inside `get_statistics`: walk the history and bump
the per-axiom and per-severity counters. -/
def statsLoop (by_axiom_ : Axiom → Nat) (by_severity : Severity → Nat) :
    List Violation → (Axiom → Nat) × (Severity → Nat)
  | [] => (by_axiom_, by_severity)
  | v :: rest =>
    statsLoop
      (fun a => if a = v.axiom_ then by_axiom_ a + 1 else by_axiom_ a)
      (fun s => if s = v.severity then by_severity s + 1 else by_severity s)
      rest

/-- Rust `get_statistics`, as a function of the history the lock guards:
total is the history length, and the maps count occurrences per axiom and
per severity. -/
def get_statistics (history : List Violation) : ViolationStatistics :=
  let maps := statsLoop (fun _ => 0) (fun _ => 0) history
  { total := history.length, by_axiom_ := maps.1, by_severity := maps.2 }

/-- The default healer built exactly as in the source's test setup:
`AxiomaticSelfHealer::new(AdaptiveAxiomaticRegularizer::new())`. -/
def defaultHealer : AxiomaticSelfHealer :=
  AxiomaticSelfHealer.new AdaptiveAxiomaticRegularizer.new

/-- The default healer with auto-healing switched off (observe-only mode). -/
def observeHealer : AxiomaticSelfHealer :=
  { defaultHealer with auto_heal := false }

/-- A concrete low-severity violation, used to instantiate general theorems. -/
def vLow : Violation :=
  { axiom_ := .Fairness, severity := .Low, context := [], timestamp := 0 }

/-- The concrete violation `detect_violations` emits for "this is unsafe". -/
def vUnsafe : Violation :=
  { axiom_ := .Safety, severity := .Critical,
    context := "this is unsafe".toList, timestamp := 0 }

section HelperLemmas

/-- The record-only branch appends exactly the given violations, in order. -/
theorem recordAll_history (vs : List Violation) (h : AxiomaticSelfHealer) :
    (recordAll h vs).regularizer.violation_history =
      h.regularizer.violation_history ++ vs := by
  induction vs generalizing h with
  | nil => simp [recordAll]
  | cons v rest ih => simp [recordAll, ih, record_violation]

/-- The healing loop appends exactly the given violations, in order. -/
theorem healStep_history (vs : List Violation) (h : AxiomaticSelfHealer)
    (ctx : List Char) :
    ((healStep h ctx vs).1).regularizer.violation_history =
      h.regularizer.violation_history ++ vs := by
  induction vs generalizing h ctx with
  | nil => simp [healStep]
  | cons v rest ih => simp [healStep, ih, record_violation]

/-- After any `monitor_and_heal` call, the ledger is the old ledger followed
by exactly the violations detected in that call. -/
theorem monitor_history (h : AxiomaticSelfHealer) (ctx : List Char) :
    (monitor_and_heal h ctx).1.regularizer.violation_history =
      h.regularizer.violation_history ++ detect_violations ctx := by
  unfold monitor_and_heal
  by_cases he : (detect_violations ctx).isEmpty
  · rw [if_pos he]
    simp [List.isEmpty_iff.mp he]
  · rw [if_neg he]
    by_cases hc : h.regularizer.threshold <
        calculate_penalty h.regularizer.axiom_weights (detect_violations ctx) ∧
        h.auto_heal = true
    · rw [if_pos hc]
      exact healStep_history _ _ _
    · rw [if_neg hc]
      exact recordAll_history _ _

/-- `monitor_and_heal` returns the `Ok` variant on every input. -/
theorem monitor_isOk (h : AxiomaticSelfHealer) (ctx : List Char) :
    (monitor_and_heal h ctx).2.isOk = true := by
  unfold monitor_and_heal
  by_cases he : (detect_violations ctx).isEmpty
  · rw [if_pos he]; rfl
  · rw [if_neg he]
    by_cases hc : h.regularizer.threshold <
        calculate_penalty h.regularizer.axiom_weights (detect_violations ctx) ∧
        h.auto_heal = true
    · rw [if_pos hc]; rfl
    · rw [if_neg hc]; rfl

/-- Shape of everything `detect_violations` can emit. -/
theorem detect_mem (ctx : List Char) (v : Violation)
    (hv : v ∈ detect_violations ctx) :
    ((v.axiom_ = .Consistency ∧ v.severity = .High) ∨
      (v.axiom_ = .Safety ∧ v.severity = .Critical)) ∧
    v.context = ctx ∧ v.timestamp = 0 := by
  unfold detect_violations at hv
  rcases List.mem_append.mp hv with hmem | hmem <;>
  · split at hmem <;> simp at hmem <;> subst hmem <;> simp [current_timestamp]

/-- The initial weights from `AdaptiveAxiomaticRegularizer::new` all lie in
the clamp range `[0.1, 10.0]`. -/
theorem new_weights_in_range (a : Axiom) (q : ℚ)
    (hq : AdaptiveAxiomaticRegularizer.new.axiom_weights a = some q) :
    mkRat 1 10 ≤ q ∧ q ≤ 10 := by
  cases a <;>
    simp [AdaptiveAxiomaticRegularizer.new] at hq <;>
    subst hq <;>
    constructor <;> norm_num [mkRat]

end HelperLemmas

/-- C1 counterexample: with the default configuration and an empty ledger,
`monitor_and_heal("This is inconsistent")` returns success, but the returned
context is `"[ROLLED_BACK] This is inconsistent"`, which STILL contains the
substring "inconsistent": the Consistency strategy list is
`[Rollback, Recompute]` and `Rollback` (which merely prefixes a marker)
always succeeds, so `Recompute` (the strategy that would remove the trigger
substring) is never tried. -/
theorem c1_counterexample :
    (monitor_and_heal defaultHealer "This is inconsistent".toList).2 =
      .Ok "[ROLLED_BACK] This is inconsistent".toList ∧
    containsSub pat_inconsistent "[ROLLED_BACK] This is inconsistent".toList = true :=
  ⟨by with_unfolding_all rfl, by with_unfolding_all rfl⟩

/-- C1 (amended): with the default configuration (threshold 0.5, auto-heal
enabled, default weights and strategy catalog) and an empty ledger,
`monitor_and_heal("This is inconsistent")` returns success, the returned
context is the input prefixed with the rollback marker (a transformed
context that still contains the substring "inconsistent"), and the ledger
afterwards contains exactly one entry added by that call. -/
theorem c1_default_heal :
    (monitor_and_heal defaultHealer "This is inconsistent".toList).2 =
      .Ok ("[ROLLED_BACK] ".toList ++ "This is inconsistent".toList) ∧
    (monitor_and_heal defaultHealer "This is inconsistent".toList).1.regularizer.violation_history =
      [{ axiom_ := .Consistency, severity := .High,
         context := "This is inconsistent".toList, timestamp := 0 }] :=
  ⟨by with_unfolding_all rfl, by with_unfolding_all rfl⟩

/-- C2: whenever the detected violation set is non-empty and either the
penalty does not exceed the threshold or auto-heal is off, `monitor_and_heal`
appends every detected violation to the ledger unchanged and returns the
original context unmodified. -/
theorem c2_tolerated (h : AxiomaticSelfHealer) (ctx : List Char)
    (hne : detect_violations ctx ≠ [])
    (hcond : calculate_penalty h.regularizer.axiom_weights (detect_violations ctx) ≤
        h.regularizer.threshold ∨ h.auto_heal = false) :
    (monitor_and_heal h ctx).1.regularizer.violation_history =
      h.regularizer.violation_history ++ detect_violations ctx ∧
    (monitor_and_heal h ctx).2 = .Ok ctx := by
  refine ⟨monitor_history h ctx, ?_⟩
  unfold monitor_and_heal
  rw [if_neg (by simp [hne])]
  rw [if_neg ?_]
  rintro ⟨hlt, hah⟩
  rcases hcond with hle | hoff
  · exact absurd hlt (not_lt.mpr hle)
  · rw [hoff] at hah; exact Bool.false_ne_true hah

/-- C2 witness: with auto-heal disabled, "this is unsafe" is recorded
unchanged and the context is returned unmodified. -/
theorem c2_tolerated_witness :
    detect_violations "this is unsafe".toList ≠ [] ∧
    observeHealer.auto_heal = false ∧
    ((monitor_and_heal observeHealer "this is unsafe".toList).1.regularizer.violation_history =
      observeHealer.regularizer.violation_history ++
        detect_violations "this is unsafe".toList ∧
    (monitor_and_heal observeHealer "this is unsafe".toList).2 =
      .Ok "this is unsafe".toList) :=
  ⟨by decide, rfl, c2_tolerated observeHealer "this is unsafe".toList (by decide) (Or.inr rfl)⟩

/-- C3: `calculate_penalty` is the sum over the violations of
`weight(axiom) * severity_multiplier(severity)` with multipliers Low 1,
Medium 2, High 4, Critical 8, default weight 1 for an unregistered axiom,
0 on the empty sequence; and a single Safety/Critical violation under the
default weights (Safety weight 1.5) yields exactly 12. -/
theorem c3_penalty_sum (w : Axiom → Option ℚ) (v : Violation) (vs : List Violation) :
    calculate_penalty w [] = 0 ∧
    calculate_penalty w (v :: vs) =
      (match w v.axiom_ with | some q => q | none => 1) *
      (match v.severity with
       | .Low => 1 | .Medium => 2 | .High => 4 | .Critical => 8) +
      calculate_penalty w vs ∧
    calculate_penalty AdaptiveAxiomaticRegularizer.new.axiom_weights
      [{ axiom_ := .Safety, severity := .Critical,
         context := "test".toList, timestamp := 0 }] = 12 :=
  ⟨rfl, rfl, by with_unfolding_all rfl⟩

/-- C7: `detect_violations "This is inconsistent"` yields exactly one
violation, with axiom Consistency; `detect_violations "this is unsafe"`
yields exactly one violation, with axiom Safety and severity Critical. -/
theorem c7_detect_examples :
    detect_violations "This is inconsistent".toList =
      [{ axiom_ := .Consistency, severity := .High,
         context := "This is inconsistent".toList, timestamp := 0 }] ∧
    detect_violations "this is unsafe".toList =
      [{ axiom_ := .Safety, severity := .Critical,
         context := "this is unsafe".toList, timestamp := 0 }] :=
  ⟨by decide, by decide⟩

/-- C8: a context containing neither "inconsistent" nor "unsafe" produces no
violations, and `monitor_and_heal` returns it unchanged with the healer
state (in particular the ledger) untouched. -/
theorem c8_no_match (h : AxiomaticSelfHealer) (ctx : List Char)
    (h1 : containsSub pat_inconsistent ctx = false)
    (h2 : containsSub pat_unsafe ctx = false) :
    detect_violations ctx = [] ∧ monitor_and_heal h ctx = (h, .Ok ctx) := by
  have hd : detect_violations ctx = [] := by
    simp [detect_violations, h1, h2]
  refine ⟨hd, ?_⟩
  unfold monitor_and_heal
  rw [hd]
  rfl

/-- C8 witness: "all good" matches no rule; with the default healer it is
returned unchanged and nothing is recorded. -/
theorem c8_no_match_witness :
    containsSub pat_inconsistent "all good".toList = false ∧
    containsSub pat_unsafe "all good".toList = false ∧
    (detect_violations "all good".toList = [] ∧
      monitor_and_heal defaultHealer "all good".toList =
        (defaultHealer, .Ok "all good".toList)) :=
  ⟨by decide, by decide,
    c8_no_match defaultHealer "all good".toList (by decide) (by decide)⟩

/-- A weight in the clamp range is nonnegative, and so is the default 1. -/
theorem weightOf_range_nonneg (w : Axiom → Option ℚ)
    (hw : ∀ a q, w a = some q → mkRat 1 10 ≤ q ∧ q ≤ 10) (a : Axiom) :
    0 ≤ weightOf w a := by
  unfold weightOf
  cases hwa : w a with
  | none => norm_num
  | some q =>
    have h1 := (hw a q hwa).1
    have h0 : (0:ℚ) ≤ mkRat 1 10 := by norm_num [mkRat]
    exact le_trans h0 h1

/-- All severity multipliers are nonnegative. -/
theorem sevMult_nonneg (s : Severity) : 0 ≤ severity_multiplier s := by
  cases s <;> norm_num [severity_multiplier]

/-- The severity multiplier is monotone in declaration-order rank. -/
theorem sevMult_mono (s t : Severity) (hst : sevRank s ≤ sevRank t) :
    severity_multiplier s ≤ severity_multiplier t := by
  cases s <;> cases t <;>
    simp only [sevRank] at hst <;>
    first
      | (exfalso; omega)
      | norm_num [severity_multiplier]

/-- C4: updating any axiom's weight keeps every stored weight inside
`[0.1, 10.0]` (the update is clamped immediately); an axiom absent from the
map is left alone and never inserted; and the initial weights are in range. -/
theorem c4_update_clamped (r : AdaptiveAxiomaticRegularizer) (a : Axiom) (f : ℚ)
    (hr : ∀ a' q, r.axiom_weights a' = some q → mkRat 1 10 ≤ q ∧ q ≤ 10) :
    (∀ a' q, (update_weights r a f).axiom_weights a' = some q →
        mkRat 1 10 ≤ q ∧ q ≤ 10) ∧
    (r.axiom_weights a = none → update_weights r a f = r) ∧
    (∀ a' q, AdaptiveAxiomaticRegularizer.new.axiom_weights a' = some q →
        mkRat 1 10 ≤ q ∧ q ≤ 10) := by
  refine ⟨?_, ?_, new_weights_in_range⟩
  · intro a' q hq
    unfold update_weights at hq
    split at hq
    · next w hwa =>
      dsimp only at hq
      by_cases ha : a' = a
      · rw [if_pos ha] at hq
        have hq' : min (max (w + r.learning_rate * f) (mkRat 1 10)) 10 = q :=
          Option.some.inj hq
        subst hq'
        exact ⟨le_min (le_max_right _ _) (by norm_num [mkRat]), min_le_right _ _⟩
      · rw [if_neg ha] at hq
        exact hr a' q hq
    · next hwa => exact hr a' q hq
  · intro hnone
    unfold update_weights
    rw [hnone]

/-- C4 witness: a large positive feedback on Consistency from the initial
weights lands (clamped) back inside the range. -/
theorem c4_update_clamped_witness :
    (∀ a q, AdaptiveAxiomaticRegularizer.new.axiom_weights a = some q →
        mkRat 1 10 ≤ q ∧ q ≤ 10) ∧
    ((∀ a q, (update_weights AdaptiveAxiomaticRegularizer.new .Consistency 100).axiom_weights a = some q →
        mkRat 1 10 ≤ q ∧ q ≤ 10) ∧
     (AdaptiveAxiomaticRegularizer.new.axiom_weights .Consistency = none →
        update_weights AdaptiveAxiomaticRegularizer.new .Consistency 100 =
          AdaptiveAxiomaticRegularizer.new) ∧
     (∀ a q, AdaptiveAxiomaticRegularizer.new.axiom_weights a = some q →
        mkRat 1 10 ≤ q ∧ q ≤ 10)) :=
  ⟨new_weights_in_range,
    c4_update_clamped AdaptiveAxiomaticRegularizer.new .Consistency 100 new_weights_in_range⟩

/-- C5: QueryUser always fails with "User intervention required"; a failed
strategy makes `applyFirst` move on to the next strategy in the list; if
every strategy fails the working context is unchanged; and
`monitor_and_heal` always returns the success variant. -/
theorem c5_failure_fallback (rest strategies : List CorrectionStrategy)
    (ctx : List Char) (v : Violation) (h : AxiomaticSelfHealer)
    (hall : ∀ s ∈ strategies, (apply_strategy s ctx v).isOk = false) :
    apply_strategy .QueryUser ctx v = .Err "User intervention required".toList ∧
    applyFirst (.QueryUser :: rest) ctx v = applyFirst rest ctx v ∧
    applyFirst strategies ctx v = ctx ∧
    (monitor_and_heal h ctx).2.isOk = true := by
  refine ⟨rfl, rfl, ?_, monitor_isOk h ctx⟩
  induction strategies with
  | nil => rfl
  | cons s rest' ih =>
    have hs := hall s (List.mem_cons_self s rest')
    unfold applyFirst
    cases hsc : apply_strategy s ctx v with
    | Ok c => rw [hsc] at hs; simp [Result.isOk] at hs
    | Err e => exact ih (fun s' hs' => hall s' (List.mem_cons_of_mem s hs'))

/-- C5 witness: with the single-element list [QueryUser] every strategy
fails, the context is unchanged, and the call still succeeds. -/
theorem c5_failure_fallback_witness :
    (∀ s ∈ [CorrectionStrategy.QueryUser],
        (apply_strategy s "ctx".toList vLow).isOk = false) ∧
    (apply_strategy .QueryUser "ctx".toList vLow =
        .Err "User intervention required".toList ∧
     applyFirst (.QueryUser :: []) "ctx".toList vLow = applyFirst [] "ctx".toList vLow ∧
     applyFirst [CorrectionStrategy.QueryUser] "ctx".toList vLow = "ctx".toList ∧
     (monitor_and_heal defaultHealer "ctx".toList).2.isOk = true) :=
  ⟨by decide,
    c5_failure_fallback [] [CorrectionStrategy.QueryUser] "ctx".toList vLow
      defaultHealer (by decide)⟩

/-- C6: with all stored weights in the clamp range (default 1 for absent
axioms), `calculate_penalty` never decreases when a violation is appended,
nor when one violation's severity is raised in declaration-order rank. -/
theorem c6_penalty_monotone (w : Axiom → Option ℚ)
    (hw : ∀ a q, w a = some q → mkRat 1 10 ≤ q ∧ q ≤ 10)
    (vs l1 l2 : List Violation) (v : Violation) (s' : Severity)
    (hs : sevRank v.severity ≤ sevRank s') :
    calculate_penalty w vs ≤ calculate_penalty w (vs ++ [v]) ∧
    calculate_penalty w (l1 ++ v :: l2) ≤
      calculate_penalty w (l1 ++ { v with severity := s' } :: l2) := by
  have hterm : ∀ u : Violation,
      0 ≤ weightOf w u.axiom_ * severity_multiplier u.severity :=
    fun u => mul_nonneg (weightOf_range_nonneg w hw u.axiom_) (sevMult_nonneg u.severity)
  constructor
  · simp only [calculate_penalty, List.map_append, List.sum_append,
      List.map_cons, List.map_nil, List.sum_cons, List.sum_nil]
    have h0 := hterm v
    linarith
  · simp only [calculate_penalty, List.map_append, List.sum_append,
      List.map_cons, List.sum_cons]
    have hmono : weightOf w v.axiom_ * severity_multiplier v.severity ≤
        weightOf w v.axiom_ * severity_multiplier s' :=
      mul_le_mul_of_nonneg_left (sevMult_mono _ _ hs)
        (weightOf_range_nonneg w hw v.axiom_)
    linarith

/-- C6 witness: under the default weights, appending a Low Fairness
violation to the empty set does not decrease the penalty, nor does raising
its severity to Critical. -/
theorem c6_penalty_monotone_witness :
    (∀ a q, AdaptiveAxiomaticRegularizer.new.axiom_weights a = some q →
        mkRat 1 10 ≤ q ∧ q ≤ 10) ∧
    sevRank vLow.severity ≤ sevRank Severity.Critical ∧
    (calculate_penalty AdaptiveAxiomaticRegularizer.new.axiom_weights [] ≤
        calculate_penalty AdaptiveAxiomaticRegularizer.new.axiom_weights ([] ++ [vLow]) ∧
     calculate_penalty AdaptiveAxiomaticRegularizer.new.axiom_weights ([] ++ vLow :: []) ≤
        calculate_penalty AdaptiveAxiomaticRegularizer.new.axiom_weights
          ([] ++ { vLow with severity := Severity.Critical } :: [])) :=
  ⟨new_weights_in_range, by decide,
    c6_penalty_monotone AdaptiveAxiomaticRegularizer.new.axiom_weights
      new_weights_in_range [] [] [] vLow .Critical (by decide)⟩

/-- The counting loop adds, per key, exactly the number of matching
violations to the starting counters. -/
theorem statsLoop_counts (l : List Violation) (ba : Axiom → Nat)
    (bs : Severity → Nat) (a : Axiom) (s : Severity) :
    (statsLoop ba bs l).1 a = ba a + l.countP (fun v => v.axiom_ == a) ∧
    (statsLoop ba bs l).2 s = bs s + l.countP (fun v => v.severity == s) := by
  induction l generalizing ba bs with
  | nil => simp [statsLoop]
  | cons v rest ih =>
    simp only [statsLoop, List.countP_cons]
    constructor
    · rw [(ih _ _).1]
      by_cases h : a = v.axiom_
      · simp only [h, if_pos rfl, beq_self_eq_true, if_true, decide_True]
        omega
      · have hne : (v.axiom_ == a) = false := by
          simp only [beq_eq_false_iff_ne]
          exact fun hh => h hh.symm
        simp [h, hne]
    · rw [(ih _ _).2]
      by_cases h : s = v.severity
      · simp only [h, if_pos rfl, beq_self_eq_true, if_true, decide_True]
        omega
      · have hne : (v.severity == s) = false := by
          simp only [beq_eq_false_iff_ne]
          exact fun hh => h hh.symm
        simp [h, hne]

/-- C9: the statistics snapshot has total equal to the history length, and
per-axiom and per-severity counts equal to the number of recorded
violations with that axiom resp. severity. -/
theorem c9_statistics (history : List Violation) (a : Axiom) (s : Severity) :
    (get_statistics history).total = history.length ∧
    (get_statistics history).by_axiom_ a =
      history.countP (fun v => v.axiom_ == a) ∧
    (get_statistics history).by_severity s =
      history.countP (fun v => v.severity == s) := by
  refine ⟨rfl, ?_, ?_⟩
  · have h1 := (statsLoop_counts history (fun _ => 0) (fun _ => 0) a s).1
    simpa [get_statistics] using h1
  · have h2 := (statsLoop_counts history (fun _ => 0) (fun _ => 0) a s).2
    simpa [get_statistics] using h2

/-- C10: every violation `detect_violations` emits is either
(Consistency, High) or (Safety, Critical), carries the full input as its
context and timestamp 0; and every ledger entry after a `monitor_and_heal`
call is either an old entry or such a violation of this call's context, so
no other axiom or severity can ever reach the ledger this way. -/
theorem c10_detect_invariant (ctx : List Char) (v w : Violation)
    (h : AxiomaticSelfHealer)
    (hv : v ∈ detect_violations ctx)
    (hw : w ∈ (monitor_and_heal h ctx).1.regularizer.violation_history) :
    (((v.axiom_ = .Consistency ∧ v.severity = .High) ∨
       (v.axiom_ = .Safety ∧ v.severity = .Critical)) ∧
      v.context = ctx ∧ v.timestamp = 0) ∧
    (w ∈ h.regularizer.violation_history ∨
      (((w.axiom_ = .Consistency ∧ w.severity = .High) ∨
         (w.axiom_ = .Safety ∧ w.severity = .Critical)) ∧
        w.context = ctx ∧ w.timestamp = 0)) := by
  refine ⟨detect_mem ctx v hv, ?_⟩
  rw [monitor_history] at hw
  rcases List.mem_append.mp hw with hmem | hmem
  · exact Or.inl hmem
  · exact Or.inr (detect_mem ctx w hmem)

/-- C10 witness: the Safety/Critical violation for "this is unsafe" is in
the ledger after the call and has the stated shape. -/
theorem c10_detect_invariant_witness :
    vUnsafe ∈ detect_violations "this is unsafe".toList ∧
    vUnsafe ∈ (monitor_and_heal defaultHealer "this is unsafe".toList).1.regularizer.violation_history ∧
    ((((vUnsafe.axiom_ = .Consistency ∧ vUnsafe.severity = .High) ∨
        (vUnsafe.axiom_ = .Safety ∧ vUnsafe.severity = .Critical)) ∧
       vUnsafe.context = "this is unsafe".toList ∧ vUnsafe.timestamp = 0) ∧
     (vUnsafe ∈ defaultHealer.regularizer.violation_history ∨
       (((vUnsafe.axiom_ = .Consistency ∧ vUnsafe.severity = .High) ∨
          (vUnsafe.axiom_ = .Safety ∧ vUnsafe.severity = .Critical)) ∧
         vUnsafe.context = "this is unsafe".toList ∧ vUnsafe.timestamp = 0))) := by
  have hv : vUnsafe ∈ detect_violations "this is unsafe".toList := by decide
  have hh : (monitor_and_heal defaultHealer "this is unsafe".toList).1.regularizer.violation_history = [vUnsafe] := by
    with_unfolding_all rfl
  have hw : vUnsafe ∈ (monitor_and_heal defaultHealer "this is unsafe".toList).1.regularizer.violation_history := by
    rw [hh]
    exact List.mem_singleton.mpr rfl
  exact ⟨hv, hw, c10_detect_invariant "this is unsafe".toList vUnsafe vUnsafe defaultHealer hv hw⟩
